import Mathlib

/-!
# Verification of the petguard upload server (src/src/main.rs)

A shallow embedding of the upload pipeline of `main.rs`:

* `save_field_file` — the File Saver: create → write → (chmod when a mode is
  configured) → (chown via the external `chown` helper when an owner is
  configured), aborting at the first failing step (lines 121–153).
* `upload` — the Upload Orchestrator: pulls multipart fields, skips fields
  without a filename, saves file fields, rolls back on save failure, and
  chooses the HTTP status (lines 84–119).
* `startup` — the configuration part of `main`: octal mode parsing with
  `u32::from_str_radix(mode_str, 8)` before the directory is created and the
  listener is bound (lines 45–82).

The filesystem is modelled as an association list from paths to nodes, and
the outcomes of the primitive I/O operations (create/write/chmod/chown/remove,
multipart decoding, byte retrieval) are supplied by explicit environment
values, so every run of the model is a concrete, computable trace of the
Rust control flow.
-/

namespace Petguard

/-- Filesystem paths, as the string form of the Rust `PathBuf`. -/
abbrev Path := String

/-- A node of the modelled filesystem: a regular file with its byte content,
its permission bits (`none` = as created, never chmod-ed) and its owner
(`none` = the process user, never chown-ed), or a directory. -/
inductive FsNode where
  | file (data : List Nat) (mode : Option Nat) (owner : Option String)
  | dir
  deriving DecidableEq

/-- The filesystem: an association list from paths to nodes (first match
wins, and `fsSet`/`fsRemove` keep keys unique). -/
abbrev FS := List (Path × FsNode)

/-- Look up the node at a path. -/
def fsGet : FS → Path → Option FsNode
  | [], _ => none
  | (q, n) :: rest, p => if q = p then some n else fsGet rest p

/-- Set the node at a path (overwriting an existing entry). -/
def fsSet : FS → Path → FsNode → FS
  | [], p, n => [(p, n)]
  | (q, m) :: rest, p, n => if q = p then (p, n) :: rest else (q, m) :: fsSet rest p n

/-- Remove the entry at a path, as `tokio::fs::remove_file` does on success. -/
def fsRemove : FS → Path → FS
  | [], _ => []
  | (q, m) :: rest, p => if q = p then fsRemove rest p else (q, m) :: fsRemove rest p

/-- `Path::is_file()`: the path names an existing regular file. -/
def isFile (fs : FS) (p : Path) : Bool :=
  match fsGet fs p with
  | some (.file _ _ _) => true
  | _ => false

/-- `Path::is_dir()`: the path names an existing directory. -/
def isDir (fs : FS) (p : Path) : Bool :=
  match fsGet fs p with
  | some .dir => true
  | _ => false

/-- `Path::exists()`: some node exists at the path. -/
def fsExists (fs : FS) (p : Path) : Bool :=
  match fsGet fs p with
  | some _ => true
  | none => false

/-- `Path::is_absolute()` on the string form: starts with `/` (Unix, as the
source's `compile_error!` guard forces). -/
def isAbsolute (p : Path) : Bool :=
  match p.toList with
  | '/' :: _ => true
  | _ => false

/-- Whether the base path already ends with a separator. -/
def endsWithSlash (p : Path) : Bool :=
  match p.toList.getLast? with
  | some '/' => true
  | _ => false

/-- `PathBuf::join` (via `push`): an absolute argument replaces the base
path entirely; otherwise the argument is appended after a separator. -/
def pathJoin (base p : Path) : Path :=
  if isAbsolute p then p
  else if base.toList.isEmpty then p
  else if endsWithSlash base then base ++ p
  else base ++ "/" ++ p

/-- `File::create`: truncate an existing regular file (its permission bits
and owner survive truncation) or create a fresh empty file. Only called by
the model when the create step succeeds. -/
def fsCreate (fs : FS) (p : Path) : FS :=
  match fsGet fs p with
  | some (.file _ m o) => fsSet fs p (.file [] m o)
  | _ => fsSet fs p (.file [] none none)

/-- Replace the content of the regular file at `p` (used for `write_all`,
both for the full payload on success and the partial prefix on failure). -/
def fsWrite (fs : FS) (p : Path) (data : List Nat) : FS :=
  match fsGet fs p with
  | some (.file _ m o) => fsSet fs p (.file data m o)
  | _ => fs

/-- `set_permissions` on success: set the permission bits of the file. -/
def fsChmod (fs : FS) (p : Path) (m : Nat) : FS :=
  match fsGet fs p with
  | some (.file d _ o) => fsSet fs p (.file d (some m) o)
  | _ => fs

/-- A successful `chown <user> <path>` helper run: set the file's owner. -/
def fsChown (fs : FS) (p : Path) (o : String) : FS :=
  match fsGet fs p with
  | some (.file d m _) => fsSet fs p (.file d m (some o))
  | _ => fs

/-- Outcome of spawning the external `chown` helper process: it either fails
to launch, or runs and exits (successfully or not). -/
inductive ChownOutcome where
  | launchFailed
  | exited (success : Bool)
  deriving DecidableEq

/-- Environment for one `save_field_file` call: whether each primitive I/O
operation succeeds, plus how many bytes a failing `write_all` left behind. -/
structure SaveEnv where
  createOk : Bool
  writeOk : Bool
  writeCount : Nat
  chmodOk : Bool
  chownOutcome : ChownOutcome
  deriving DecidableEq

/-- The error cases of the save sequence; `owner` covers both a `chown`
launch failure and a non-zero exit status, as in `save_field_file`. -/
inductive SaveError where
  | create
  | write
  | permissions
  | owner
  deriving DecidableEq

/-- The four possible steps of the save sequence, recorded in the order they
are attempted. -/
inductive SaveStep where
  | create
  | write
  | chmod
  | chown
  deriving DecidableEq

/-- The steps `save_field_file` is supposed to run for a given
configuration: create and write always, chmod only when a mode is
configured, chown only when an owner is configured. -/
def saveSteps (mode : Option Nat) (owner : Option String) : List SaveStep :=
  [.create, .write]
    ++ (if mode.isSome then [.chmod] else [])
    ++ (if owner.isSome then [.chown] else [])

/-- Whether a given step succeeds in environment `env` against filesystem
`fs` at path `p` (`File::create` also fails when the path is an existing
directory; the other steps are pure environment outcomes). -/
def stepOk (env : SaveEnv) (fs : FS) (p : Path) : SaveStep → Bool
  | .create => env.createOk && !(isDir fs p)
  | .write => env.writeOk
  | .chmod => env.chmodOk
  | .chown => env.chownOutcome == .exited true

/-- The `SaveError` reported when a given step fails. -/
def stepError : SaveStep → SaveError
  | .create => .create
  | .write => .write
  | .chmod => .permissions
  | .chown => .owner

/-- The tail of `save_field_file` (source lines 138–152): run the `chown`
helper when an owner is configured. `tr` is the trace of steps already
attempted. -/
def saveOwner (env : SaveEnv) (filepath : Path) (owner : Option String)
    (fs : FS) (tr : List SaveStep) : FS × List SaveStep × Except SaveError Unit :=
  match owner with
  | none => (fs, tr, .ok ())
  | some o =>
    match env.chownOutcome with
    | .launchFailed => (fs, tr ++ [.chown], .error .owner)
    | .exited false => (fs, tr ++ [.chown], .error .owner)
    | .exited true => (fsChown fs filepath o, tr ++ [.chown], .ok ())

/-- `save_field_file` (source lines 121–153): create the file, write the
whole payload, set permissions when a mode is configured, change the owner
via the `chown` helper when an owner is configured; stop at the first
failure. Returns the resulting filesystem, the trace of attempted steps and
the result. -/
def save_field_file (env : SaveEnv) (filepath : Path) (data : List Nat)
    (mode : Option Nat) (owner : Option String) (fs : FS) :
    FS × List SaveStep × Except SaveError Unit :=
  if env.createOk && !(isDir fs filepath) then
    let fs1 := fsCreate fs filepath
    if env.writeOk then
      let fs2 := fsWrite fs1 filepath data
      match mode with
      | none => saveOwner env filepath owner fs2 [.create, .write]
      | some m =>
        if env.chmodOk then
          saveOwner env filepath owner (fsChmod fs2 filepath m) [.create, .write, .chmod]
        else (fs2, [.create, .write, .chmod], .error .permissions)
    else (fsWrite fs1 filepath (data.take env.writeCount), [.create, .write], .error .write)
  else (fs, [.create], .error .create)

/-- One event of the multipart decoder stream, as consumed by the `while let`
loop of `upload`: either `next_field` fails (`decodeError`), or it yields a
field with an optional filename, the outcome of retrieving its byte payload
(`none` = `field.bytes()` failed), the I/O environment its save would run
under, and whether a rollback `remove_file` of its path would succeed. -/
inductive FieldEvent where
  | decodeError
  | field (filename : Option String) (bytes : Option (List Nat))
      (env : SaveEnv) (removeOk : Bool)
  deriving DecidableEq

/-- Observable side-effect calls the orchestrator makes, in order: invoking
the File Saver on a path, and attempting the rollback `remove_file`. -/
inductive OrchAction where
  | saveCall (p : Path)
  | removeAttempt (p : Path)
  deriving DecidableEq

/-- The HTTP outcome of `upload`: `ok saved` is `200 OK` with the JSON body
listing `saved` as `saved_files`; `badRequest` is `400`; `internalError`
is `500`. -/
inductive UploadResult where
  | ok (saved : List Path)
  | badRequest
  | internalError
  deriving DecidableEq

/-- The field loop of `upload` (source lines 90–118). `saved` accumulates
the paths already saved, in processing order (`saved_files.push`). Returns
the final filesystem, the trace of orchestrator actions from this point on,
and the HTTP outcome. -/
def uploadGo (dir : Path) (mode : Option Nat) (owner : Option String) :
    List FieldEvent → List Path → FS → FS × List OrchAction × UploadResult
  | [], saved, fs => (fs, [], if saved.isEmpty then .badRequest else .ok saved)
  | .decodeError :: _, _, fs => (fs, [], .badRequest)
  | .field none _ _ _ :: rest, saved, fs => uploadGo dir mode owner rest saved fs
  | .field (some _) none _ _ :: _, _, fs => (fs, [], .internalError)
  | .field (some fname) (some data) env removeOk :: rest, saved, fs =>
    let filepath := pathJoin dir fname
    match save_field_file env filepath data mode owner fs with
    | (fs1, _, .error _) =>
      if isFile fs1 filepath && fsExists fs1 filepath then
        (if removeOk then fsRemove fs1 filepath else fs1,
         [.saveCall filepath, .removeAttempt filepath], .internalError)
      else (fs1, [.saveCall filepath], .internalError)
    | (fs1, _, .ok _) =>
      match uploadGo dir mode owner rest (saved ++ [filepath]) fs1 with
      | (fs2, acts, r) => (fs2, .saveCall filepath :: acts, r)

/-- `upload` (source lines 84–119): run the field loop with an empty saved
list. -/
def upload (dir : Path) (mode : Option Nat) (owner : Option String)
    (events : List FieldEvent) (fs : FS) : FS × List OrchAction × UploadResult :=
  uploadGo dir mode owner events [] fs

/-- The `pathJoin dir f` destinations of the file fields (fields with a
filename) of an event stream, in decode order. -/
def filePaths (dir : Path) : List FieldEvent → List Path
  | [] => []
  | .field (some f) _ _ _ :: rest => pathJoin dir f :: filePaths dir rest
  | _ :: rest => filePaths dir rest

/-- Whether the whole event stream decodes without error and every file
field has its bytes retrieved and fully saved (threading the filesystem the
way `upload` does). -/
def allFieldsSaved (dir : Path) (mode : Option Nat) (owner : Option String) :
    List FieldEvent → FS → Bool
  | [], _ => true
  | .decodeError :: _, _ => false
  | .field none _ _ _ :: rest, fs => allFieldsSaved dir mode owner rest fs
  | .field (some _) none _ _ :: _, _ => false
  | .field (some f) (some data) env _ :: rest, fs =>
    match save_field_file env (pathJoin dir f) data mode owner fs with
    | (fs1, _, .ok _) => allFieldsSaved dir mode owner rest fs1
    | (_, _, .error _) => false

/-- A field event that is skipped by the orchestrator: present but without a
filename. -/
def hasNoFilename : FieldEvent → Bool
  | .field none _ _ _ => true
  | _ => false

/-- The octal value of a character, when it is an octal digit. -/
def octDigitVal : Char → Option Nat :=
  fun c => if 48 ≤ c.toNat ∧ c.toNat ≤ 55 then some (c.toNat - 48) else none

/-- Accumulate octal digits left to right; `none` on the first non-digit. -/
def parseOctalDigits : List Char → Nat → Option Nat
  | [], acc => some acc
  | c :: cs, acc =>
    match octDigitVal c with
    | some d => parseOctalDigits cs (acc * 8 + d)
    | none => none

/-- `u32::from_str_radix(s, 8)`: an optional leading `+` (a `-` is not
accepted for an unsigned type), then at least one octal digit, and the value
must fit in 32 bits; anything else is an error (`none`). -/
def u32FromStrRadix8 (s : String) : Option Nat :=
  let ds := match s.toList with
    | '+' :: rest => rest
    | cs => cs
  match ds with
  | [] => none
  | _ =>
    match parseOctalDigits ds 0 with
    | none => none
    | some v => if v < 4294967296 then some v else none

/-- The bootstrap actions of `main` after mode parsing, in program order. -/
inductive StartAction where
  | createDir
  | bindListener
  | serve
  deriving DecidableEq

/-- How a startup run ends: a fatal configuration error from an invalid mode
string (the process exits with `Err` before any I/O), an I/O error from
directory creation or listener binding, or serving with the parsed mode. -/
inductive StartupOutcome where
  | configError
  | ioError
  | serving (mode : Option Nat)
  deriving DecidableEq

/-- Environment for startup: whether `create_dir_all` and the listener bind
succeed. -/
structure StartupEnv where
  createDirOk : Bool
  bindOk : Bool
  deriving DecidableEq

/-- The bootstrap actions after mode parsing (source lines 67–80):
`create_dir_all`, bind the listener, then serve. -/
def startupRun (env : StartupEnv) (mode : Option Nat) :
    List StartAction × StartupOutcome :=
  if env.createDirOk then
    if env.bindOk then ([.createDir, .bindListener, .serve], .serving mode)
    else ([.createDir, .bindListener], .ioError)
  else ([.createDir], .ioError)

/-- The startup sequence of `main` (source lines 54–80): parse the optional
octal mode string first; an invalid mode returns `Err` at once, so neither
`create_dir_all` nor the listener bind nor serving happens. -/
def startup (env : StartupEnv) (modeArg : Option String) :
    List StartAction × StartupOutcome :=
  match modeArg with
  | none => startupRun env none
  | some s =>
    match u32FromStrRadix8 s with
    | none => ([], .configError)
    | some m => startupRun env (some m)

/-! ## Basic filesystem lemmas -/

theorem fsGet_fsSet_self (fs : FS) (p : Path) (n : FsNode) :
    fsGet (fsSet fs p n) p = some n := by
  induction fs with
  | nil => simp [fsSet, fsGet]
  | cons e rest ih =>
    obtain ⟨q, m⟩ := e
    by_cases h : q = p <;> simp [fsSet, fsGet, h, ih]

theorem fsGet_fsRemove_self (fs : FS) (p : Path) :
    fsGet (fsRemove fs p) p = none := by
  induction fs with
  | nil => simp [fsRemove, fsGet]
  | cons e rest ih =>
    obtain ⟨q, m⟩ := e
    by_cases h : q = p <;> simp [fsRemove, fsGet, h, ih]

/-- After a successful create followed by a write (full or partial), the
destination is a regular file. -/
theorem isFile_create_write (fs : FS) (p : Path) (d : List Nat) :
    isFile (fsWrite (fsCreate fs p) p d) p = true := by
  unfold fsCreate
  cases h : fsGet fs p with
  | none => simp [isFile, fsWrite, fsGet_fsSet_self]
  | some n => cases n <;> simp [isFile, fsWrite, fsGet_fsSet_self]

theorem fsExists_of_isFile (fs : FS) (p : Path) (h : isFile fs p = true) :
    fsExists fs p = true := by
  unfold isFile at h
  unfold fsExists
  cases hg : fsGet fs p with
  | none => rw [hg] at h; simp at h
  | some n => simp

/-! ## C1: the File Saver runs its steps in order and reports the first
failure -/

/-- C1: For every call to `save_field_file`, the attempted steps are
exactly the successful prefix of create, write, chmod-when-configured,
chown-when-configured, followed by the first failing step when there is one;
the call returns `ok` when every step of that configured sequence succeeds,
and otherwise the error naming the first failing step (a `chown` launch
failure and a non-zero `chown` exit both map to the owner error by
`stepOk`/`stepError`). -/
theorem save_field_file_first_failure (env : SaveEnv) (filepath : Path)
    (data : List Nat) (mode : Option Nat) (owner : Option String) (fs : FS) :
    (save_field_file env filepath data mode owner fs).2.1
      = (saveSteps mode owner).takeWhile (stepOk env fs filepath)
        ++ ((saveSteps mode owner).dropWhile (stepOk env fs filepath)).take 1
    ∧ (save_field_file env filepath data mode owner fs).2.2
      = (match ((saveSteps mode owner).dropWhile (stepOk env fs filepath)).head? with
         | none => Except.ok ()
         | some s => Except.error (stepError s)) := by
  obtain ⟨c, w, wp, ch, co⟩ := env
  cases hD : isDir fs filepath <;>
    cases mode <;> cases owner <;> cases c <;> cases w <;> cases ch <;>
    rcases co with _ | b <;> (try cases b) <;>
    simp [save_field_file, saveOwner, saveSteps, stepOk, stepError, hD,
      List.takeWhile, List.dropWhile] <;> exact ⟨rfl, rfl⟩

/-! ## C2: save failure triggers best-effort rollback, a 500 response, and
aborts the remaining fields -/

/-- C2: When the File Saver fails on a field, the orchestrator attempts
the rollback deletion exactly when a regular file exists at the destination
(the `is_file && exists` guard of the source), the response is
`500 Internal Server Error` whether or not the deletion succeeds (`removeOk`
does not reach the status), and the remaining fields `rest` are never
processed (the outcome does not mention `rest` and no further actions
occur). -/
theorem upload_save_failure_rollback (dir : Path) (mode : Option Nat)
    (owner : Option String) (f : String) (data : List Nat) (env : SaveEnv)
    (removeOk : Bool) (rest : List FieldEvent) (saved : List Path)
    (fs fs1 : FS) (tr : List SaveStep) (e : SaveError)
    (h : save_field_file env (pathJoin dir f) data mode owner fs = (fs1, tr, .error e)) :
    uploadGo dir mode owner (.field (some f) (some data) env removeOk :: rest) saved fs
      = (if isFile fs1 (pathJoin dir f) && fsExists fs1 (pathJoin dir f) then
           (if removeOk then fsRemove fs1 (pathJoin dir f) else fs1,
            [.saveCall (pathJoin dir f), .removeAttempt (pathJoin dir f)],
            .internalError)
         else (fs1, [.saveCall (pathJoin dir f)], .internalError)) := by
  simp only [uploadGo]
  rw [h]

/-- Witness for C2: a write failure on `/up/a.txt` with a failing rollback
deletion still answers 500, leaves the partial file, and processes no
further field. -/
theorem upload_save_failure_rollback_witness :
    uploadGo "/up" none none
        [.field (some "a.txt") (some [104, 105]) ⟨true, false, 1, true, .exited true⟩ false,
         .field (some "b.txt") (some [106]) ⟨true, true, 0, true, .exited true⟩ true] [] []
      = ([("/up/a.txt", .file [104] none none)],
         [.saveCall "/up/a.txt", .removeAttempt "/up/a.txt"], .internalError) := by
  rw [upload_save_failure_rollback "/up" none none "a.txt" [104, 105]
    ⟨true, false, 1, true, .exited true⟩ false
    [.field (some "b.txt") (some [106]) ⟨true, true, 0, true, .exited true⟩ true] []
    [] [("/up/a.txt", FsNode.file [104] none none)] [.create, .write] .write rfl]
  decide

/-! ## C10: the rollback deletion is guarded by `is_file` -/

/-- C10: On a save failure, a rollback deletion is attempted if and only
if the destination is an existing regular file after the failed save; when it
is not (the path is absent, or is a directory — which also makes the create
step fail), the filesystem is left untouched, so the rollback never removes
a directory: a directory at the destination is still there afterwards. -/
theorem rollback_only_when_regular_file (dir : Path) (mode : Option Nat)
    (owner : Option String) (f : String) (data : List Nat) (env : SaveEnv)
    (removeOk : Bool) (rest : List FieldEvent) (saved : List Path)
    (fs fs1 : FS) (tr : List SaveStep) (e : SaveError)
    (h : save_field_file env (pathJoin dir f) data mode owner fs = (fs1, tr, .error e)) :
    (OrchAction.removeAttempt (pathJoin dir f)
        ∈ (uploadGo dir mode owner
            (.field (some f) (some data) env removeOk :: rest) saved fs).2.1
      ↔ isFile fs1 (pathJoin dir f) = true)
    ∧ (isFile fs1 (pathJoin dir f) = false →
        (uploadGo dir mode owner
            (.field (some f) (some data) env removeOk :: rest) saved fs).1 = fs1)
    ∧ (fsGet fs1 (pathJoin dir f) = some .dir →
        fsGet (uploadGo dir mode owner
            (.field (some f) (some data) env removeOk :: rest) saved fs).1
          (pathJoin dir f) = some .dir) := by
  simp only [uploadGo, h]
  cases hf : isFile fs1 (pathJoin dir f) with
  | true =>
    simp only [hf, fsExists_of_isFile _ _ hf, Bool.and_self, if_true]
    refine ⟨by simp, by simp, fun hd => ?_⟩
    have hnot : isFile fs1 (pathJoin dir f) = false := by simp [isFile, hd]
    rw [hnot] at hf
    exact absurd hf (by decide)
  | false =>
    simp only [hf, Bool.false_and, Bool.false_eq_true, if_false]
    simp

/-- Witness for C10: the create step fails on a path occupied by a
directory; no deletion is attempted and the directory survives. -/
theorem rollback_only_when_regular_file_witness :
    (OrchAction.removeAttempt "/up/d"
        ∈ (uploadGo "/up" none none
            [.field (some "d") (some [104]) ⟨true, true, 0, true, .exited true⟩ true]
            [] [("/up/d", FsNode.dir)]).2.1
      ↔ isFile [("/up/d", FsNode.dir)] "/up/d" = true)
    ∧ fsGet (uploadGo "/up" none none
          [.field (some "d") (some [104]) ⟨true, true, 0, true, .exited true⟩ true]
          [] [("/up/d", FsNode.dir)]).1 "/up/d" = some FsNode.dir := by
  have h := rollback_only_when_regular_file "/up" none none "d" [104]
    ⟨true, true, 0, true, .exited true⟩ true [] [] [("/up/d", FsNode.dir)]
    [("/up/d", FsNode.dir)] [.create] .create rfl
  exact ⟨h.1, h.2.2 (by decide)⟩

/-! ## C7: a byte-retrieval failure aborts at once with 500 -/

/-- C7: When retrieving a file field's bytes fails, `upload` returns
`500 Internal Server Error` immediately: the filesystem is untouched, no
orchestrator action happens from that point on (in particular the File
Saver is not called for the field), and the remaining fields `rest` do not
influence the outcome. -/
theorem bytes_failure_aborts (dir : Path) (mode : Option Nat)
    (owner : Option String) (f : String) (env : SaveEnv) (removeOk : Bool)
    (rest : List FieldEvent) (saved : List Path) (fs : FS) :
    uploadGo dir mode owner (.field (some f) none env removeOk :: rest) saved fs
      = (fs, [], .internalError) := rfl

/-! ## C3: a decode error aborts with 400, but files already saved persist -/

/-- Counterexample to C3 as stated: a request whose first field is saved
successfully and whose next `next_field` call fails gets the claimed
`400 Bad Request`, yet the file written for the first field is still on
disk — the code performs no cleanup of earlier fields on a decode error. -/
theorem decode_error_counterexample :
    (upload "/up" none none
        [.field (some "a.txt") (some [104]) ⟨true, true, 0, true, .exited true⟩ true,
         .decodeError] []).2.2 = .badRequest
    ∧ ¬ (fsGet (upload "/up" none none
        [.field (some "a.txt") (some [104]) ⟨true, true, 0, true, .exited true⟩ true,
         .decodeError] []).1 "/up/a.txt" = none) := by
  decide

/-- C3, amended: A decode error at any point makes `upload` answer
`400 Bad Request` immediately: the remaining events are not processed, no
saved-files listing is produced, and the filesystem is exactly the one
reached so far — so files saved for earlier fields of the same request
remain on disk. -/
theorem decode_error_aborts (dir : Path) (mode : Option Nat)
    (owner : Option String) (rest : List FieldEvent) (saved : List Path)
    (fs : FS) :
    uploadGo dir mode owner (.decodeError :: rest) saved fs
      = (fs, [], .badRequest) := rfl

/-! ## C6: write failure after a successful create -/

/-- Counterexample to C6 as stated: create succeeds, write fails, and the
rollback `remove_file` itself fails; the request still answers
`500 Internal Server Error` but the partially-written destination is left
on disk, so "the destination path does not exist after the request" does
not hold when the best-effort deletion fails. -/
theorem write_failure_path_persists :
    (upload "/up" none none
        [.field (some "a.txt") (some [104, 105]) ⟨true, false, 1, true, .exited true⟩ false]
        []).2.2 = .internalError
    ∧ ¬ (fsGet (upload "/up" none none
        [.field (some "a.txt") (some [104, 105]) ⟨true, false, 1, true, .exited true⟩ false]
        []).1 "/up/a.txt" = none) := by
  decide

/-- C6, amended: When the create step succeeds and the write step then
fails, the response is `500 Internal Server Error`, a rollback deletion of
the destination is attempted, and whenever that deletion succeeds the
destination path no longer exists on disk after the request. -/
theorem write_failure_rollback (dir : Path) (mode : Option Nat)
    (owner : Option String) (f : String) (data : List Nat) (env : SaveEnv)
    (removeOk : Bool) (rest : List FieldEvent) (saved : List Path) (fs : FS)
    (hc : env.createOk = true) (hd : isDir fs (pathJoin dir f) = false)
    (hw : env.writeOk = false) :
    (uploadGo dir mode owner
        (.field (some f) (some data) env removeOk :: rest) saved fs).2.2
      = .internalError
    ∧ OrchAction.removeAttempt (pathJoin dir f)
        ∈ (uploadGo dir mode owner
            (.field (some f) (some data) env removeOk :: rest) saved fs).2.1
    ∧ (removeOk = true →
        fsGet (uploadGo dir mode owner
            (.field (some f) (some data) env removeOk :: rest) saved fs).1
          (pathJoin dir f) = none) := by
  have hsave : save_field_file env (pathJoin dir f) data mode owner fs
      = (fsWrite (fsCreate fs (pathJoin dir f)) (pathJoin dir f)
           (data.take env.writeCount),
         [.create, .write], .error .write) := by
    simp [save_field_file, hc, hd, hw]
  have hfile := isFile_create_write fs (pathJoin dir f) (data.take env.writeCount)
  have hex := fsExists_of_isFile _ _ hfile
  simp only [uploadGo, hsave, hfile, hex, Bool.and_self, if_true]
  cases removeOk <;> simp [fsGet_fsRemove_self]

/-- Witness for C6 (amended): a concrete write failure whose rollback
deletion succeeds leaves no node at the destination and answers 500. -/
theorem write_failure_rollback_witness :
    (uploadGo "/up" none none
        [.field (some "a.txt") (some [104, 105]) ⟨true, false, 1, true, .exited true⟩ true]
        [] []).2.2 = .internalError
    ∧ fsGet (uploadGo "/up" none none
        [.field (some "a.txt") (some [104, 105]) ⟨true, false, 1, true, .exited true⟩ true]
        [] []).1 "/up/a.txt" = none := by
  have h := write_failure_rollback "/up" none none "a.txt" [104, 105]
    ⟨true, false, 1, true, .exited true⟩ true [] [] [] rfl (by decide) rfl
  exact ⟨h.1, h.2.2 rfl⟩

/-! ## C4: the 200 response lists exactly the fully saved paths, in order -/

/-- Generalisation of C4 over the saved-paths accumulator: whenever the
field loop ends with a `200 OK`, the reported list is the accumulator
followed by the destination paths of all file fields, every one of those
fields was fully saved, and the list is non-empty. -/
theorem uploadGo_ok_spec (dir : Path) (mode : Option Nat) (owner : Option String) :
    ∀ (events : List FieldEvent) (saved : List Path) (fs fs' : FS)
      (acts : List OrchAction) (out : List Path),
      uploadGo dir mode owner events saved fs = (fs', acts, .ok out) →
      out = saved ++ filePaths dir events
        ∧ out ≠ []
        ∧ allFieldsSaved dir mode owner events fs = true := by
  intro events
  induction events with
  | nil =>
    intro saved fs fs' acts out h
    simp only [uploadGo] at h
    cases hs : saved.isEmpty with
    | true => rw [hs] at h; simp at h
    | false =>
      rw [hs] at h
      simp only [Bool.false_eq_true, if_false, Prod.mk.injEq, UploadResult.ok.injEq] at h
      obtain ⟨-, -, h3⟩ := h
      subst h3
      refine ⟨by simp [filePaths], ?_, rfl⟩
      cases saved with
      | nil => simp [List.isEmpty] at hs
      | cons a l => simp
  | cons e rest ih =>
    intro saved fs fs' acts out h
    cases e with
    | decodeError => simp [uploadGo] at h
    | field fname bytes env rm =>
      cases fname with
      | none =>
        obtain ⟨h1, h2, h3⟩ := ih saved fs fs' acts out h
        exact ⟨by simpa [filePaths] using h1, h2, by simpa [allFieldsSaved] using h3⟩
      | some f =>
        cases bytes with
        | none => simp [uploadGo] at h
        | some data =>
          rcases hsv : save_field_file env (pathJoin dir f) data mode owner fs
            with ⟨fs1, tr, r⟩
          cases r with
          | error err =>
            simp only [uploadGo, hsv] at h
            by_cases hcond :
                (isFile fs1 (pathJoin dir f) && fsExists fs1 (pathJoin dir f)) = true <;>
              simp [hcond] at h
          | ok u =>
            cases u
            rcases hrec : uploadGo dir mode owner rest (saved ++ [pathJoin dir f]) fs1
              with ⟨fs2, acts2, r2⟩
            simp only [uploadGo, hsv, hrec, Prod.mk.injEq] at h
            obtain ⟨-, -, h3⟩ := h
            obtain ⟨h1, h2, h4⟩ :=
              ih (saved ++ [pathJoin dir f]) fs1 fs2 acts2 out (by rw [hrec, h3])
            refine ⟨?_, h2, ?_⟩
            · simpa [filePaths, List.append_assoc] using h1
            · simp [allFieldsSaved, hsv, h4]

/-- C4: Whenever `upload` answers `200 OK` with a `saved_files` list,
that list is exactly the destination paths of the request's file fields, in
the order the fields were decoded, it is non-empty, and every listed field
was fully saved (bytes written, mode applied when configured, owner applied
when configured — `allFieldsSaved` demands an `ok` result of the complete
save sequence for each file field): a path is listed if and only if all its
configured save steps succeeded. -/
theorem upload_ok_lists_exactly_saved (dir : Path) (mode : Option Nat)
    (owner : Option String) (events : List FieldEvent) (fs fs' : FS)
    (acts : List OrchAction) (out : List Path)
    (h : upload dir mode owner events fs = (fs', acts, .ok out)) :
    out = filePaths dir events ∧ out ≠ []
      ∧ allFieldsSaved dir mode owner events fs = true := by
  obtain ⟨h1, h2, h3⟩ := uploadGo_ok_spec dir mode owner events [] fs fs' acts out h
  exact ⟨by simpa using h1, h2, h3⟩

/-- Witness for C4: a request with one non-file field and one file field
saved with mode `644` and owner `pet` answers `200 OK` listing exactly
`/up/a.txt`. -/
theorem upload_ok_lists_exactly_saved_witness :
    (["/up/a.txt"] : List Path)
        = filePaths "/up"
            [.field none (some [1]) ⟨true, true, 0, true, .exited true⟩ true,
             .field (some "a.txt") (some [104]) ⟨true, true, 0, true, .exited true⟩ true]
    ∧ (["/up/a.txt"] : List Path) ≠ []
    ∧ allFieldsSaved "/up" (some 420) (some "pet")
        [.field none (some [1]) ⟨true, true, 0, true, .exited true⟩ true,
         .field (some "a.txt") (some [104]) ⟨true, true, 0, true, .exited true⟩ true]
        [] = true :=
  upload_ok_lists_exactly_saved "/up" (some 420) (some "pet")
    [.field none (some [1]) ⟨true, true, 0, true, .exited true⟩ true,
     .field (some "a.txt") (some [104]) ⟨true, true, 0, true, .exited true⟩ true]
    [] [("/up/a.txt", .file [104] (some 420) (some "pet"))]
    [.saveCall "/up/a.txt"] ["/up/a.txt"] rfl

/-! ## C5: a fully decoded request with no file field answers 400 -/

/-- Helper for C5: a stream of only filename-less fields leaves the
filesystem untouched, performs no action and ends in `400 Bad Request`. -/
theorem uploadGo_all_skipped (dir : Path) (mode : Option Nat)
    (owner : Option String) :
    ∀ (events : List FieldEvent) (fs : FS), events.all hasNoFilename = true →
      uploadGo dir mode owner events [] fs = (fs, [], .badRequest) := by
  intro events
  induction events with
  | nil => intro fs _; rfl
  | cons e rest ih =>
    intro fs h
    rw [List.all_cons, Bool.and_eq_true] at h
    obtain ⟨he, hr⟩ := h
    cases e with
    | decodeError => simp [hasNoFilename] at he
    | field fname bytes env rm =>
      cases fname with
      | none => exact ih fs hr
      | some f => simp [hasNoFilename] at he

/-- C5: A request whose multipart stream decodes fully but contains only
fields without a filename (including the empty stream) answers
`400 Bad Request`, no orchestrator action is performed and the filesystem
is unchanged — no file is created anywhere, in particular not in the save
directory. -/
theorem no_file_fields_bad_request (dir : Path) (mode : Option Nat)
    (owner : Option String) (events : List FieldEvent) (fs : FS)
    (h : events.all hasNoFilename = true) :
    upload dir mode owner events fs = (fs, [], .badRequest) :=
  uploadGo_all_skipped dir mode owner events fs h

/-- Witness for C5: a single non-file field on a filesystem holding one
unrelated file: 400, nothing created. -/
theorem no_file_fields_bad_request_witness :
    upload "/up" none none
        [.field none (some [104]) ⟨true, true, 0, true, .exited true⟩ true]
        [("/up/old", FsNode.file [1] none none)]
      = ([("/up/old", FsNode.file [1] none none)], [], .badRequest) :=
  no_file_fields_bad_request "/up" none none
    [.field none (some [104]) ⟨true, true, 0, true, .exited true⟩ true]
    [("/up/old", FsNode.file [1] none none)] (by decide)

/-! ## C8: an invalid octal mode string is fatal before serving -/

/-- C8: When the configured mode string is not a valid octal `u32`, the
startup sequence of `main` returns the configuration error immediately: no
bootstrap action at all is performed — in particular the save directory is
not created, the listener is never bound and the server never serves. -/
theorem invalid_mode_string_fatal (env : StartupEnv) (s : String)
    (h : u32FromStrRadix8 s = none) :
    startup env (some s) = ([], .configError) := by
  simp [startup, h]

/-- Witness for C8: `8` is not an octal digit, so mode string `"8"` aborts
startup before any bootstrap action even when all I/O would succeed. -/
theorem invalid_mode_string_fatal_witness :
    startup ⟨true, true⟩ (some "8") = ([], .configError) :=
  invalid_mode_string_fatal ⟨true, true⟩ "8" (by decide)

/-! ## C9: an absolute filename escapes the save directory -/

/-- C9: For a file field whose filename is absolute, the destination
built by `save_dir.join(filename)` is the filename itself — the save
directory contributes nothing — and the File Saver is invoked on that
escaped path, so the file is written wherever the absolute filename points,
outside the save directory. -/
theorem absolute_filename_escapes_save_dir (dir f : Path) (data : List Nat)
    (env : SaveEnv) (removeOk : Bool) (mode : Option Nat)
    (owner : Option String) (fs : FS) (h : isAbsolute f = true) :
    pathJoin dir f = f
    ∧ (uploadGo dir mode owner [.field (some f) (some data) env removeOk]
        [] fs).2.1.head? = some (.saveCall f) := by
  have hj : pathJoin dir f = f := by simp [pathJoin, h]
  refine ⟨hj, ?_⟩
  rcases hsv : save_field_file env (pathJoin dir f) data mode owner fs with ⟨fs1, tr, r⟩
  cases r with
  | error err =>
    simp only [uploadGo, hsv]
    split <;> simp [hj]
  | ok u =>
    cases u
    simp only [uploadGo, hsv]
    simp [hj]

/-- Witness for C9: filename `/etc/cfg` with save directory `/up` is saved
at `/etc/cfg` itself. -/
theorem absolute_filename_escapes_save_dir_witness :
    pathJoin "/up" "/etc/cfg" = "/etc/cfg"
    ∧ (uploadGo "/up" none none
        [.field (some "/etc/cfg") (some [104]) ⟨true, true, 0, true, .exited true⟩ true]
        [] []).2.1.head? = some (.saveCall "/etc/cfg") :=
  absolute_filename_escapes_save_dir "/up" "/etc/cfg" [104]
    ⟨true, true, 0, true, .exited true⟩ true none none [] (by decide)

end Petguard
